import Mathlib

/-
Shallow embedding of the card-set reconciliation and lifecycle-classification
logic of src/index.tsx (gift-card tracker), together with theorems checking
the specification's claims about it.

Conventions of the embedding:
- JS strings are Lean `String`s; `.trim()` is `jsTrim` (the JS whitespace set
  restricted to its ASCII members, the only ones that occur in this data).
- JS numbers holding balances are `Rat`; timestamps (milliseconds) are `Int`.
- A record's optional `expiryDate` field is `Option String`; `none` models the
  key being absent (the only way a well-typed record lacks it).
- Nondeterministic id generation (`Date.now().toString() + Math.random()...`)
  is modelled by a generator `genId : Nat → String` sampled at successive
  indices, and the ambient clock `Date.now()` by an explicit `now` argument.
- Local time is modelled as UTC (offset 0).
-/

-- ### JS string primitives

/-- Whitespace recognizer used by JS `trim` and the `\s` class (ASCII part). -/
def isJsSpace (c : Char) : Bool :=
  c = ' ' || c = '\t' || c = '\n' || c = '\r' || c = '\x0b' || c = '\x0c'

/-- Remove leading and trailing whitespace from a character list. -/
def trimChars (l : List Char) : List Char :=
  ((l.dropWhile isJsSpace).reverse.dropWhile isJsSpace).reverse

/-- Embedding of JS `String.prototype.trim`. -/
def jsTrim (s : String) : String :=
  String.mk (trimChars s.data)

/-- Split a character list at every separator character, like JS
`String.prototype.split` with a single-character regex class: adjacent
separators yield empty pieces, and so do leading/trailing separators. -/
def splitChars (p : Char → Bool) : List Char → List (List Char)
  | [] => [[]]
  | c :: cs =>
    if p c then [] :: splitChars p cs
    else
      match splitChars p cs with
      | [] => [[c]]
      | g :: gs => (c :: g) :: gs

/-- The split used on expiry dates in src/index.tsx: on `/`, `-` or space. -/
def splitDate (s : String) : List (List Char) :=
  splitChars (fun c => c = '/' || c = '-' || isJsSpace c) s.data

def digitsToNat (ds : List Char) : Nat :=
  ds.foldl (fun a c => a * 10 + (c.toNat - Char.toNat '0')) 0

def isHexDigitChar (c : Char) : Bool :=
  c.isDigit || ('a' ≤ c && c ≤ 'f') || ('A' ≤ c && c ≤ 'F')

def hexVal (c : Char) : Nat :=
  if c.isDigit then c.toNat - Char.toNat '0'
  else if 'a' ≤ c && c ≤ 'f' then c.toNat - Char.toNat 'a' + 10
  else c.toNat - Char.toNat 'A' + 10

def hexToNat (ds : List Char) : Nat :=
  ds.foldl (fun a c => a * 16 + hexVal c) 0

/-- Optional leading sign of a JS numeric literal. -/
def intSign : List Char → Int × List Char
  | '-' :: t => (-1, t)
  | '+' :: t => (1, t)
  | s => (1, s)

/-- Embedding of JS `parseInt(s, 10)`: skip leading whitespace, optional
sign, then the longest run of decimal digits; `none` models `NaN`. -/
def jsParseInt10 (s : List Char) : Option Int :=
  let s1 := s.dropWhile isJsSpace
  let sr := intSign s1
  let ds := sr.2.takeWhile Char.isDigit
  if ds.isEmpty then none else some (sr.1 * (digitsToNat ds : Int))

/-- Embedding of JS `parseInt(s)` with no radix argument: decimal, except
that a `0x`/`0X` prefix selects hexadecimal. -/
def jsParseIntAuto (s : List Char) : Option Int :=
  let s1 := s.dropWhile isJsSpace
  let sr := intSign s1
  match sr.2 with
  | '0' :: x :: t =>
    if x = 'x' || x = 'X' then
      let ds := t.takeWhile isHexDigitChar
      if ds.isEmpty then none else some (sr.1 * (hexToNat ds : Int))
    else
      let ds := ('0' :: x :: t).takeWhile Char.isDigit
      if ds.isEmpty then none else some (sr.1 * (digitsToNat ds : Int))
  | r =>
    let ds := r.takeWhile Char.isDigit
    if ds.isEmpty then none else some (sr.1 * (digitsToNat ds : Int))

def toLowerChars (l : List Char) : List Char := l.map Char.toLower

/-- The month-abbreviation table of `isCardArchived`, applied to the first
three lowercased characters of the month component. -/
def monthAbbrevIndex : List Char → Option Int
  | ['j', 'a', 'n'] => some 0
  | ['f', 'e', 'b'] => some 1
  | ['m', 'a', 'r'] => some 2
  | ['a', 'p', 'r'] => some 3
  | ['m', 'a', 'y'] => some 4
  | ['j', 'u', 'n'] => some 5
  | ['j', 'u', 'l'] => some 6
  | ['a', 'u', 'g'] => some 7
  | ['s', 'e', 'p'] => some 8
  | ['o', 'c', 't'] => some 9
  | ['n', 'o', 'v'] => some 10
  | ['d', 'e', 'c'] => some 11
  | _ => none

-- ### JS Date arithmetic (proleptic Gregorian, local time modelled as UTC)

/-- Days since 1970-01-01 of the proleptic Gregorian date (y, m, d), with
m in 1..12; d may lie outside the month and is added linearly, exactly as
in the MakeDay algorithm of the ECMAScript Date. -/
def daysFromCivil (y m d : Int) : Int :=
  let y2 := if m ≤ 2 then y - 1 else y
  let era := Int.fdiv y2 400
  let yoe := y2 - era * 400
  let mp := if 2 < m then m - 3 else m + 9
  let doy := Int.fdiv (153 * mp + 2) 5 + (d - 1)
  let doe := yoe * 365 + Int.fdiv yoe 4 - Int.fdiv yoe 100 + doy
  era * 146097 + doe - 719468

/-- Millisecond value of `new Date(year, month0, day)` (local midnight,
with local time modelled as UTC): a year in 0..99 is read as 1900+year and
an out-of-range zero-based month carries over into adjacent years. -/
def jsDateMs (year month0 day : Int) : Int :=
  let yr := if 0 ≤ year ∧ year ≤ 99 then 1900 + year else year
  let ym := yr + Int.fdiv month0 12
  let mn := Int.emod month0 12
  daysFromCivil ym (mn + 1) day * 86400000

/-- Millisecond value after `expiry.setHours(23, 59, 59, 999)`: the end of
the (JS-normalized) calendar day. -/
def jsEndOfDayMs (year month0 day : Int) : Int :=
  jsDateMs year month0 day + 86399999

/-- Modelled from the spec's words for comparison (claim C5): the end,
23:59:59.999 local, of the literally parsed calendar day (year, month0, day),
with no two-digit-year adjustment. -/
def civilEndOfDayMs (year month0 day : Int) : Int :=
  daysFromCivil year (month0 + 1) day * 86400000 + 86399999

-- ### Data model (src/index.tsx, interfaces GiftCard and NewCardData)

structure GiftCard where
  id : String
  cardNumber : String
  pin : String
  balance : Rat
  expiryDate : Option String
  lastUpdated : Int
  deriving DecidableEq

structure NewCardData where
  cardNumber : String
  pin : String
  balance : Rat
  deriving DecidableEq

def cardNums (l : List GiftCard) : List String := l.map GiftCard.cardNumber

def normNums (l : List GiftCard) : List String :=
  l.map (fun g => jsTrim g.cardNumber)

-- ### Lifecycle classifier (src/index.tsx, isCardArchived)

/-- Embedding of `isCardArchived`: a card is archived when its balance is 0,
or else when its expiry string splits into exactly three components whose
month is a known abbreviation prefix or parses as an integer, whose day and
year parse as integers, and the end of the resulting day lies strictly
before `now`. -/
def isCardArchived (now : Int) (card : GiftCard) : Bool :=
  if card.balance = 0 then true
  else
    match card.expiryDate with
    | none => false
    | some e =>
      match splitDate e with
      | [p0, p1, p2] =>
        let day := jsParseInt10 p0
        let monthStr := toLowerChars p1
        let year := jsParseInt10 p2
        let month :=
          match monthAbbrevIndex (monthStr.take 3) with
          | some m => some m
          | none =>
            match jsParseIntAuto monthStr with
            | some n => some (n - 1)
            | none => none
        match month, day, year with
        | some m, some d, some y => decide (jsEndOfDayMs y m d < now)
        | _, _, _ => false
      | _ => false

/-- The expiry parse inside `isCardArchived`, factored out: returns the
(day, zero-based month, year) triple exactly when the classifier's parse
succeeds. -/
def parseExpiry (e : String) : Option (Int × Int × Int) :=
  match splitDate e with
  | [p0, p1, p2] =>
    let monthStr := toLowerChars p1
    let month :=
      match monthAbbrevIndex (monthStr.take 3) with
      | some m => some m
      | none =>
        match jsParseIntAuto monthStr with
        | some n => some (n - 1)
        | none => none
    match month, jsParseInt10 p0, jsParseInt10 p2 with
    | some m, some d, some y => some (d, m, y)
    | _, _, _ => none
  | _ => none

-- ### Reconciliation engine: new-card add (src/index.tsx, handleAddCards)

/-- The record pushed by `handleAddCards` for accepted candidate `c`, the
k-th id drawn from the generator. -/
def newRecord (genId : Nat → String) (now : Int) (k : Nat) (c : NewCardData) :
    GiftCard :=
  { id := genId k, cardNumber := jsTrim c.cardNumber, pin := c.pin,
    balance := c.balance, expiryDate := none, lastUpdated := now }

/-- Loop of `handleAddCards`: `updatedList` and `duplicates` are the two
accumulators of the source; `k` counts ids drawn so far. -/
def handleAddCardsGo (genId : Nat → String) (now : Int) :
    List NewCardData → List GiftCard → List String → Nat →
    List GiftCard × List String
  | [], updatedList, duplicates, _ => (updatedList, duplicates)
  | cardData :: rest, updatedList, duplicates, k =>
    let normalizedNum := jsTrim cardData.cardNumber
    if updatedList.any (fun c => c.cardNumber == normalizedNum) then
      handleAddCardsGo genId now rest updatedList
        (duplicates ++ [normalizedNum]) k
    else
      handleAddCardsGo genId now rest
        (updatedList ++ [newRecord genId now k cardData]) duplicates (k + 1)

/-- Embedding of `handleAddCards` (the spec's `mergeNew`): returns the
updated collection and the duplicate numbers reported to the user. -/
def handleAddCards (genId : Nat → String) (now : Int)
    (existing : List GiftCard) (newCardsData : List NewCardData) :
    List GiftCard × List String :=
  handleAddCardsGo genId now newCardsData existing [] 0

/-- The merge routine as described by the specification's claim C1: for each
candidate in input order, a candidate whose trimmed number equals the
`cardNumber` of any record already in the collection (the records accepted
earlier in the batch included) is recorded as a duplicate, and any other
candidate is appended as a new record. -/
def mergeNewSpec (genId : Nat → String) (now : Int) (existing : List GiftCard)
    (k : Nat) : List NewCardData → List GiftCard × List String
  | [] => (existing, [])
  | c :: rest =>
    let n := jsTrim c.cardNumber
    if existing.any (fun g => g.cardNumber == n) then
      let r := mergeNewSpec genId now existing k rest
      (r.1, n :: r.2)
    else
      mergeNewSpec genId now (existing ++ [newRecord genId now k c]) (k + 1) rest

/-- The records accepted from a collision-free batch, in input order, with
ids drawn from index `k` on (used to state claim C9). -/
def acceptedRecords (genId : Nat → String) (now : Int) :
    Nat → List NewCardData → List GiftCard
  | _, [] => []
  | k, c :: rest => newRecord genId now k c :: acceptedRecords genId now (k + 1) rest

-- ### Reconciliation engine: import merge (src/index.tsx, handleImport)

/-- The object `{...newCards[index], ...imp, id: newCards[index].id}`: every
field present on `imp` overrides the old one; the optional `expiryDate`
overrides only when the key is present on `imp` (a JS spread does not copy
absent keys); the old `id` is reinstated last. -/
def overwriteFrom (old imp : GiftCard) : GiftCard :=
  { id := old.id
    cardNumber := imp.cardNumber
    pin := imp.pin
    balance := imp.balance
    expiryDate :=
      (match imp.expiryDate with
      | some e => some e
      | none => old.expiryDate)
    lastUpdated := imp.lastUpdated }

/-- Loop of `handleImport` over the imported records; `k` counts ids drawn. -/
def handleImportGo (genId : Nat → String) :
    List GiftCard → List GiftCard → Nat → List GiftCard
  | newCards, [], _ => newCards
  | newCards, imp :: rest, k =>
    let i := newCards.findIdx (fun c => c.cardNumber == imp.cardNumber)
    if h : i < newCards.length then
      handleImportGo genId
        (newCards.set i (overwriteFrom (newCards.get ⟨i, h⟩) imp)) rest k
    else
      handleImportGo genId (newCards ++ [{ imp with id := genId k }]) rest (k + 1)

/-- Embedding of `handleImport` (the spec's `importMerge`). -/
def handleImport (genId : Nat → String)
    (existing importedCards : List GiftCard) : List GiftCard :=
  handleImportGo genId existing importedCards 0

-- ### Balance update (src/index.tsx, updateBalanceManually)

/-- The field update applied to the matching record: balance and timestamp
are set, and `expiryDate` is replaced only when a new value is supplied
(`newExpiry !== undefined` in the source). -/
def applyBalanceUpdate (now : Int) (newBalance : Rat)
    (newExpiry : Option String) (c : GiftCard) : GiftCard :=
  { c with
    balance := newBalance
    lastUpdated := now
    expiryDate :=
      match newExpiry with
      | some e => some e
      | none => c.expiryDate }

/-- Embedding of `updateBalanceManually`. -/
def updateBalanceManually (now : Int) (id : String) (newBalance : Rat)
    (newExpiry : Option String) (cards : List GiftCard) : List GiftCard :=
  cards.map fun c =>
    if c.id = id then applyBalanceUpdate now newBalance newExpiry c else c

-- ### Entry validation (src/index.tsx, handleManualSubmit / handleEmailParse)

/-- Embedding of `handleManualSubmit`: the raw (untrimmed) card number must
have at least 4 characters and the pin at least 2, otherwise the submission
is rejected and the collection unchanged; an accepted entry goes through
`handleAddCards` as a one-element batch. -/
def handleManualSubmit (genId : Nat → String) (now : Int)
    (existing : List GiftCard) (number pin : String) (balance : Rat) :
    List GiftCard :=
  if number.length < 4 ∨ pin.length < 2 then existing
  else (handleAddCards genId now existing [⟨number, pin, balance⟩]).1

/-- A record extracted from free text by the AI collaborator:
`{cardNumber, pin, amount}` with `amount` optional. -/
structure ExtractedCard where
  cardNumber : String
  pin : String
  amount : Option Rat
  deriving DecidableEq

/-- Embedding of `handleEmailParse` after the AI response arrived: a
non-empty extraction batch is mapped to new-card inputs (`amount || 0`) and
passed to `handleAddCards` with no further validation; an empty batch only
produces an error message. -/
def handleEmailParse (genId : Nat → String) (now : Int)
    (existing : List GiftCard) (extracted : List ExtractedCard) :
    List GiftCard :=
  if 0 < extracted.length then
    (handleAddCards genId now existing
      (extracted.map fun c => ⟨c.cardNumber, c.pin, c.amount.getD 0⟩)).1
  else existing

-- ### Import payload handling (src/index.tsx, handleFileChange)

/-- A parsed import payload: either some JSON array of records, or anything
else (a non-array JSON value, or unparseable text). -/
inductive ImportPayload where
  | notArray : ImportPayload
  | arr : List GiftCard → ImportPayload

/-- Embedding of `handleFileChange` (with the user confirming the dialog):
only `Array.isArray` is checked before the payload reaches `handleImport`. -/
def handleFileChange (genId : Nat → String) (existing : List GiftCard) :
    ImportPayload → List GiftCard
  | ImportPayload.notArray => existing
  | ImportPayload.arr json => handleImport genId existing json

-- ### Helper lemmas on lists and trimming

theorem dropWhile_head_false {α : Type} {p : α → Bool} :
    ∀ {l : List α} {a : α} {t : List α}, l.dropWhile p = a :: t → p a = false := by
  intro l
  induction l with
  | nil => intro a t h; simp at h
  | cons b l ih =>
    intro a t h
    by_cases hb : p b
    · rw [List.dropWhile_cons_of_pos hb] at h
      exact ih h
    · rw [List.dropWhile_cons_of_neg hb] at h
      injection h with h1 h2
      subst h1
      simpa using hb

theorem dropWhile_dropWhile {α : Type} {p : α → Bool} (l : List α) :
    (l.dropWhile p).dropWhile p = l.dropWhile p := by
  cases h : l.dropWhile p with
  | nil => rfl
  | cons a t =>
    rw [List.dropWhile_cons_of_neg]
    simp [dropWhile_head_false h]

theorem trimChars_idem (l : List Char) : trimChars (trimChars l) = trimChars l := by
  unfold trimChars
  set u := l.dropWhile isJsSpace with hu
  set w := u.reverse.dropWhile isJsSpace with hw
  have h1 : w.reverse.dropWhile isJsSpace = w.reverse := by
    cases hc : w.reverse with
    | nil => rfl
    | cons a t =>
      have hu2 : l.dropWhile isJsSpace
          = a :: (t ++ (u.reverse.takeWhile isJsSpace).reverse) := by
        rw [← hu]
        calc u = u.reverse.reverse := (List.reverse_reverse u).symm
          _ = (u.reverse.takeWhile isJsSpace ++ w).reverse := by
              rw [List.takeWhile_append_dropWhile]
          _ = w.reverse ++ (u.reverse.takeWhile isJsSpace).reverse := by
              rw [List.reverse_append]
          _ = a :: (t ++ (u.reverse.takeWhile isJsSpace).reverse) := by
              rw [hc]; rfl
      rw [List.dropWhile_cons_of_neg]
      simp [dropWhile_head_false hu2]
  rw [h1, List.reverse_reverse, hw, dropWhile_dropWhile]

theorem jsTrim_idem (s : String) : jsTrim (jsTrim s) = jsTrim s := by
  unfold jsTrim
  rw [show (String.mk (trimChars s.data)).data = trimChars s.data from rfl,
    trimChars_idem]

theorem set_get_self_eq {α : Type} :
    ∀ (l : List α) (i : Nat) (h : i < l.length), l.set i (l.get ⟨i, h⟩) = l
  | _ :: _, 0, _ => rfl
  | a :: t, i + 1, h =>
    congrArg (a :: ·) (set_get_self_eq t i (Nat.lt_of_succ_lt_succ h))

/-- The membership test of `handleAddCards`, restated on `cardNums`. -/
theorem any_cardNumber_eq (l : List GiftCard) (n : String) :
    (l.any fun c => c.cardNumber == n) = true ↔ n ∈ cardNums l := by
  simp only [List.any_eq_true, beq_iff_eq, cardNums, List.mem_map]

-- ### Lemmas about handleAddCards

theorem handleAddCardsGo_eq_spec (genId : Nat → String) (now : Int) :
    ∀ (rest : List NewCardData) (updated : List GiftCard) (dups : List String)
      (k : Nat),
      handleAddCardsGo genId now rest updated dups k
        = ((mergeNewSpec genId now updated k rest).1,
           dups ++ (mergeNewSpec genId now updated k rest).2) := by
  intro rest
  induction rest with
  | nil => intro updated dups k; simp [handleAddCardsGo, mergeNewSpec]
  | cons c rest ih =>
    intro updated dups k
    cases hc : (updated.any fun g => g.cardNumber == jsTrim c.cardNumber) with
    | true => simp [handleAddCardsGo, mergeNewSpec, hc, ih]
    | false => simp [handleAddCardsGo, mergeNewSpec, hc, ih]

theorem handleAddCardsGo_nodup (genId : Nat → String) (now : Int) :
    ∀ (rest : List NewCardData) (updated : List GiftCard) (dups : List String)
      (k : Nat), (cardNums updated).Nodup →
      (cardNums (handleAddCardsGo genId now rest updated dups k).1).Nodup := by
  intro rest
  induction rest with
  | nil => intro updated dups k h; simpa [handleAddCardsGo] using h
  | cons c rest ih =>
    intro updated dups k h
    cases hc : (updated.any fun g => g.cardNumber == jsTrim c.cardNumber) with
    | true =>
      simp only [handleAddCardsGo, hc]
      exact ih updated _ k h
    | false =>
      simp only [handleAddCardsGo, hc]
      apply ih
      have hnotin : jsTrim c.cardNumber ∉ cardNums updated := by
        intro hmem
        rw [← any_cardNumber_eq updated (jsTrim c.cardNumber)] at hmem
        rw [hc] at hmem
        exact Bool.false_ne_true hmem
      show (cardNums (updated ++ [newRecord genId now k c])).Nodup
      rw [cardNums, List.map_append]
      exact List.Nodup.append h (List.nodup_singleton _)
        (List.disjoint_singleton.2 hnotin)

theorem handleAddCardsGo_trimmed (genId : Nat → String) (now : Int) :
    ∀ (rest : List NewCardData) (updated : List GiftCard) (dups : List String)
      (k : Nat),
      (∀ g ∈ updated, jsTrim g.cardNumber = g.cardNumber) →
      ∀ g ∈ (handleAddCardsGo genId now rest updated dups k).1,
        jsTrim g.cardNumber = g.cardNumber := by
  intro rest
  induction rest with
  | nil => intro updated dups k h; simpa [handleAddCardsGo] using h
  | cons c rest ih =>
    intro updated dups k h
    cases hc : (updated.any fun g => g.cardNumber == jsTrim c.cardNumber) with
    | true =>
      simp only [handleAddCardsGo, hc]
      exact ih updated _ k h
    | false =>
      simp only [handleAddCardsGo, hc]
      apply ih
      intro g hg
      rw [List.mem_append] at hg
      rcases hg with hg | hg
      · exact h g hg
      · rw [List.mem_singleton] at hg
        subst hg
        exact jsTrim_idem c.cardNumber

theorem handleAddCardsGo_no_collision (genId : Nat → String) (now : Int) :
    ∀ (incoming : List NewCardData) (updated : List GiftCard)
      (dups : List String) (k : Nat),
      (incoming.map fun c => jsTrim c.cardNumber).Nodup →
      (∀ c ∈ incoming, jsTrim c.cardNumber ∉ cardNums updated) →
      handleAddCardsGo genId now incoming updated dups k
        = (updated ++ acceptedRecords genId now k incoming, dups) := by
  intro incoming
  induction incoming with
  | nil => intro updated dups k h1 h2; simp [handleAddCardsGo, acceptedRecords]
  | cons c rest ih =>
    intro updated dups k h1 h2
    have hfalse : (updated.any fun g => g.cardNumber == jsTrim c.cardNumber) = false := by
      rw [← Bool.not_eq_true, any_cardNumber_eq]
      exact h2 c (List.mem_cons_self c rest)
    simp only [handleAddCardsGo, hfalse]
    rw [ih (updated ++ [newRecord genId now k c]) dups (k + 1)]
    · rw [acceptedRecords, List.append_assoc]
      rfl
    · rw [List.map_cons] at h1
      exact h1.of_cons
    · intro c2 hc2
      rw [cardNums, List.map_append, List.mem_append]
      rintro (hmem | hmem)
      · exact h2 c2 (List.mem_cons_of_mem c hc2) hmem
      · rw [List.map_singleton, List.mem_singleton] at hmem
        rw [List.map_cons, List.nodup_cons] at h1
        exact h1.1 (List.mem_map.2 ⟨c2, hc2, hmem⟩)

-- ### Lemmas about handleImport

theorem map_set_self_of_eq {α β : Type} (f : α → β) (l : List α) (i : Nat)
    (h : i < l.length) (a : α) (heq : f a = f (l.get ⟨i, h⟩)) :
    (l.set i a).map f = l.map f := by
  rw [List.map_set, heq]
  have h2 : i < (l.map f).length := by simpa using h
  have h3 : (l.map f).get ⟨i, h2⟩ = f (l.get ⟨i, h⟩) := by simp
  rw [← h3]
  exact set_get_self_eq _ i h2

theorem handleImportGo_cons_found (genId : Nat → String)
    (newCards : List GiftCard) (imp : GiftCard) (rest : List GiftCard) (k : Nat)
    (h : (newCards.findIdx fun c => c.cardNumber == imp.cardNumber)
      < newCards.length) :
    handleImportGo genId newCards (imp :: rest) k
      = handleImportGo genId
          (newCards.set (newCards.findIdx fun c => c.cardNumber == imp.cardNumber)
            (overwriteFrom
              (newCards.get ⟨newCards.findIdx fun c => c.cardNumber == imp.cardNumber, h⟩)
              imp))
          rest k := by
  simp only [handleImportGo]
  rw [dif_pos h]

theorem handleImportGo_cons_not_found (genId : Nat → String)
    (newCards : List GiftCard) (imp : GiftCard) (rest : List GiftCard) (k : Nat)
    (h : ¬ (newCards.findIdx fun c => c.cardNumber == imp.cardNumber)
      < newCards.length) :
    handleImportGo genId newCards (imp :: rest) k
      = handleImportGo genId (newCards ++ [{ imp with id := genId k }]) rest (k + 1) := by
  simp only [handleImportGo]
  rw [dif_neg h]

/-- Replacing the matched record does not change the stored card numbers. -/
theorem cardNums_set_overwrite (newCards : List GiftCard) (imp : GiftCard)
    (h : (newCards.findIdx fun c => c.cardNumber == imp.cardNumber)
      < newCards.length) :
    cardNums (newCards.set (newCards.findIdx fun c => c.cardNumber == imp.cardNumber)
      (overwriteFrom
        (newCards.get ⟨newCards.findIdx fun c => c.cardNumber == imp.cardNumber, h⟩)
        imp))
      = cardNums newCards := by
  have hp := @List.findIdx_getElem _ (fun c => c.cardNumber == imp.cardNumber) newCards h
  rw [beq_iff_eq] at hp
  refine map_set_self_of_eq GiftCard.cardNumber newCards _ h _ ?_
  show imp.cardNumber = _
  exact hp.symm

/-- A card number absent from the collection means the lookup finds nothing. -/
theorem not_found_of_not_mem (newCards : List GiftCard) (imp : GiftCard)
    (h : ¬ (newCards.findIdx fun c => c.cardNumber == imp.cardNumber)
      < newCards.length) :
    imp.cardNumber ∉ cardNums newCards := by
  intro hmem
  apply h
  rw [List.findIdx_lt_length]
  obtain ⟨g, hg, hgeq⟩ := List.mem_map.1 hmem
  exact ⟨g, hg, by simp [hgeq]⟩

theorem handleImportGo_nums_mem (genId : Nat → String) :
    ∀ (imported newCards : List GiftCard) (k : Nat) (n : String),
      n ∈ cardNums newCards →
      n ∈ cardNums (handleImportGo genId newCards imported k) := by
  intro imported
  induction imported with
  | nil => intro newCards k n hn; simpa [handleImportGo] using hn
  | cons imp rest ih =>
    intro newCards k n hn
    by_cases h : (newCards.findIdx fun c => c.cardNumber == imp.cardNumber)
        < newCards.length
    · rw [handleImportGo_cons_found genId newCards imp rest k h]
      apply ih
      rw [cardNums_set_overwrite newCards imp h]
      exact hn
    · rw [handleImportGo_cons_not_found genId newCards imp rest k h]
      apply ih
      rw [cardNums, List.map_append, List.mem_append]
      exact Or.inl hn

theorem handleImportGo_nodup (genId : Nat → String) :
    ∀ (imported newCards : List GiftCard) (k : Nat),
      (cardNums newCards).Nodup →
      (cardNums (handleImportGo genId newCards imported k)).Nodup := by
  intro imported
  induction imported with
  | nil => intro newCards k hn; simpa [handleImportGo] using hn
  | cons imp rest ih =>
    intro newCards k hn
    by_cases h : (newCards.findIdx fun c => c.cardNumber == imp.cardNumber)
        < newCards.length
    · rw [handleImportGo_cons_found genId newCards imp rest k h]
      apply ih
      rw [cardNums_set_overwrite newCards imp h]
      exact hn
    · rw [handleImportGo_cons_not_found genId newCards imp rest k h]
      apply ih
      show (cardNums (newCards ++ [{ imp with id := genId k }])).Nodup
      rw [cardNums, List.map_append]
      exact List.Nodup.append hn (List.nodup_singleton _)
        (List.disjoint_singleton.2 (not_found_of_not_mem newCards imp h))

theorem handleImportGo_trimmed (genId : Nat → String) :
    ∀ (imported newCards : List GiftCard) (k : Nat),
      (∀ g ∈ newCards, jsTrim g.cardNumber = g.cardNumber) →
      (∀ g ∈ imported, jsTrim g.cardNumber = g.cardNumber) →
      ∀ g ∈ handleImportGo genId newCards imported k,
        jsTrim g.cardNumber = g.cardNumber := by
  intro imported
  induction imported with
  | nil => intro newCards k h1 h2 g hg; exact h1 g hg
  | cons imp rest ih =>
    intro newCards k h1 h2
    have himp : jsTrim imp.cardNumber = imp.cardNumber :=
      h2 imp (List.mem_cons_self imp rest)
    have h2r : ∀ g ∈ rest, jsTrim g.cardNumber = g.cardNumber :=
      fun g hg => h2 g (List.mem_cons_of_mem imp hg)
    by_cases h : (newCards.findIdx fun c => c.cardNumber == imp.cardNumber)
        < newCards.length
    · rw [handleImportGo_cons_found genId newCards imp rest k h]
      apply ih _ _ _ h2r
      intro g hg
      rcases List.mem_or_eq_of_mem_set hg with hg2 | hg2
      · exact h1 g hg2
      · subst hg2
        exact himp
    · rw [handleImportGo_cons_not_found genId newCards imp rest k h]
      apply ih _ _ _ h2r
      intro g hg
      rw [List.mem_append] at hg
      rcases hg with hg2 | hg2
      · exact h1 g hg2
      · rw [List.mem_singleton] at hg2
        subst hg2
        exact himp

-- ### Concrete fixtures used by witnesses and counterexamples

def genIdDemo (k : Nat) : String := String.mk (List.replicate (k + 1) 'i')

def cardA : GiftCard := ⟨"idA", "1111", "11", 5, none, 0⟩

def cardB : GiftCard := ⟨"idB", "2222", "22", 10, none, 0⟩

def inputC : NewCardData := ⟨"3333", "33", 3⟩

def inputD : NewCardData := ⟨"4444", "44", 4⟩

-- ### Claim C1: dedup behaviour of mergeNew

/-- Claim C1: `handleAddCards` (the spec's mergeNew) processes candidates in
input order, reporting a candidate as a duplicate exactly when its trimmed
number equals the `cardNumber` of a record already present, the records
accepted earlier in the same batch included, and appending every other
candidate as a fresh record with a generated id, the supplied pin/balance
and `lastUpdated = now`; in particular a number arriving twice in one batch
over a collection not containing it yields exactly one new record and one
duplicate entry. -/
theorem claim_C1_theorem :
    (∀ (genId : Nat → String) (now : Int) (existing : List GiftCard)
       (incoming : List NewCardData),
       handleAddCards genId now existing incoming
         = mergeNewSpec genId now existing 0 incoming)
    ∧ (∀ (genId : Nat → String) (now : Int) (existing : List GiftCard)
       (c1 c2 : NewCardData),
       jsTrim c1.cardNumber = jsTrim c2.cardNumber →
       jsTrim c1.cardNumber ∉ cardNums existing →
       handleAddCards genId now existing [c1, c2]
         = (existing ++ [newRecord genId now 0 c1], [jsTrim c2.cardNumber])) := by
  constructor
  · intro genId now existing incoming
    rw [handleAddCards, handleAddCardsGo_eq_spec]
    simp
  · intro genId now existing c1 c2 heq hnot
    have h1 : (existing.any fun g => g.cardNumber == jsTrim c1.cardNumber) = false := by
      rw [← Bool.not_eq_true, any_cardNumber_eq]
      exact hnot
    have h2 : ((existing ++ [newRecord genId now 0 c1]).any
        fun g => g.cardNumber == jsTrim c2.cardNumber) = true := by
      rw [any_cardNumber_eq, cardNums, List.map_append, List.mem_append]
      right
      rw [List.map_singleton, List.mem_singleton]
      exact heq.symm
    rw [handleAddCards]
    simp only [handleAddCardsGo, h1, h2]
    simp

/-- Witness for C1 at a concrete batch holding the same number twice. -/
theorem claim_C1_witness :
    handleAddCards genIdDemo 7 [] [⟨"9999 ", "91", 5⟩, ⟨" 9999", "92", 3⟩]
      = ([] ++ [newRecord genIdDemo 7 0 ⟨"9999 ", "91", 5⟩], [jsTrim (" 9999")]) :=
  claim_C1_theorem.2 genIdDemo 7 [] ⟨"9999 ", "91", 5⟩ ⟨" 9999", "92", 3⟩
    (by decide) (by decide)

-- ### Claim C9: order preservation of mergeNew

/-- Claim C9: on a collision-free batch, the updated collection is exactly
the existing records in their original order followed by the accepted
records in input order. -/
theorem claim_C9_theorem (genId : Nat → String) (now : Int)
    (existing : List GiftCard) (incoming : List NewCardData)
    (h1 : (incoming.map fun c => jsTrim c.cardNumber).Nodup)
    (h2 : ∀ c ∈ incoming, jsTrim c.cardNumber ∉ cardNums existing) :
    handleAddCards genId now existing incoming
      = (existing ++ acceptedRecords genId now 0 incoming, []) := by
  rw [handleAddCards]
  exact handleAddCardsGo_no_collision genId now incoming existing [] 0 h1 h2

/-- Witness for C9: existing [A, B] and incoming [C, D] yield [A, B, C, D]. -/
theorem claim_C9_witness :
    handleAddCards genIdDemo 7 [cardA, cardB] [inputC, inputD]
      = ([cardA, cardB] ++ acceptedRecords genIdDemo 7 0 [inputC, inputD], []) :=
  claim_C9_theorem genIdDemo 7 [cardA, cardB] [inputC, inputD]
    (by decide) (by decide)

-- ### Claim C4: zero balance is terminal

/-- Claim C4: a card with balance 0 is archived whatever its expiry date
and whatever the current time. -/
theorem claim_C4_theorem (now : Int) (card : GiftCard)
    (hb : card.balance = 0) : isCardArchived now card = true := by
  unfold isCardArchived
  rw [if_pos hb]

def zeroBalanceCard : GiftCard := ⟨"idZ", "5555", "55", 0, some ("01/Jan/2099"), 0⟩

/-- Witness for C4: a drained card with a far-future expiry is archived. -/
theorem claim_C4_witness : isCardArchived 1704067200000 zeroBalanceCard = true :=
  claim_C4_theorem 1704067200000 zeroBalanceCard rfl

-- ### Claim C10: frame property of updateBalanceManually

/-- Claim C10: the balance update touches exactly the records whose id
matches: such a record gets the new balance, the current time, and a new
expiry only when one is supplied, with id, cardNumber and pin untouched;
every other record is unchanged, and with no match the collection is
returned unchanged. -/
theorem claim_C10_theorem (now : Int) (id : String) (newBalance : Rat)
    (newExpiry : Option String) (cards : List GiftCard) :
    (updateBalanceManually now id newBalance newExpiry cards).length = cards.length
    ∧ (∀ i : Nat, (updateBalanceManually now id newBalance newExpiry cards)[i]?
        = (cards[i]?).map fun c =>
            if c.id = id then applyBalanceUpdate now newBalance newExpiry c else c)
    ∧ (∀ c : GiftCard,
        (applyBalanceUpdate now newBalance newExpiry c).id = c.id
        ∧ (applyBalanceUpdate now newBalance newExpiry c).cardNumber = c.cardNumber
        ∧ (applyBalanceUpdate now newBalance newExpiry c).pin = c.pin
        ∧ (applyBalanceUpdate now newBalance newExpiry c).balance = newBalance
        ∧ (applyBalanceUpdate now newBalance newExpiry c).lastUpdated = now
        ∧ (applyBalanceUpdate now newBalance newExpiry c).expiryDate
            = (match newExpiry with
               | some e => some e
               | none => c.expiryDate))
    ∧ ((∀ c ∈ cards, c.id ≠ id) →
       updateBalanceManually now id newBalance newExpiry cards = cards) := by
  refine ⟨?_, ?_, ?_, ?_⟩
  · rw [updateBalanceManually]
    exact List.length_map _ _
  · intro i
    rw [updateBalanceManually]
    exact List.getElem?_map _ _ _
  · intro c
    exact ⟨rfl, rfl, rfl, rfl, rfl, rfl⟩
  · intro hno
    rw [updateBalanceManually]
    have hcong : ∀ c ∈ cards,
        (if c.id = id then applyBalanceUpdate now newBalance newExpiry c else c)
          = c := by
      intro c hc
      rw [if_neg (hno c hc)]
    rw [List.map_congr_left hcong, List.map_id']

/-- Witness for C10: updating an id that is absent leaves the list intact. -/
theorem claim_C10_witness :
    updateBalanceManually 9 ("idZ") 3 none [cardA, cardB] = [cardA, cardB] :=
  (claim_C10_theorem 9 ("idZ") 3 none [cardA, cardB]).2.2.2 (by decide)

-- ### Claim C7 (corrected): minimum-length validation

/-- Amended claim C7: a manual entry is rejected, leaving the collection
unchanged, when its raw (untrimmed) card number is shorter than 4
characters or its pin shorter than 2; extraction-origin batches receive no
length validation at all and are passed to `handleAddCards` unchanged. -/
theorem claim_C7_theorem :
    (∀ (genId : Nat → String) (now : Int) (existing : List GiftCard)
       (number pin : String) (balance : Rat),
       number.length < 4 ∨ pin.length < 2 →
       handleManualSubmit genId now existing number pin balance = existing)
    ∧ (∀ (genId : Nat → String) (now : Int) (existing : List GiftCard)
       (extracted : List ExtractedCard), extracted ≠ [] →
       handleEmailParse genId now existing extracted
         = (handleAddCards genId now existing
             (extracted.map fun c => ⟨c.cardNumber, c.pin, c.amount.getD 0⟩)).1) := by
  constructor
  · intro genId now existing number pin balance h
    rw [handleManualSubmit, if_pos h]
  · intro genId now existing extracted h
    rw [handleEmailParse, if_pos]
    exact List.length_pos.mpr h

/-- Counterexample to C7 as stated: a card number of 4 raw characters that
trims to a single character passes the manual check and is stored, and an
extraction-origin candidate with a 1-character pin is stored unvalidated. -/
theorem claim_C7_counterexample :
    (jsTrim ("  1 ")).length < 4
    ∧ handleManualSubmit (fun _ => "gen") 0 [] ("  1 ") ("11") 5 ≠ []
    ∧ handleEmailParse (fun _ => "gen") 0 [] [⟨"1", "1", none⟩] ≠ [] := by
  exact ⟨by decide, by decide, by decide⟩

/-- Witness for C7: a raw 3-character number is rejected. -/
theorem claim_C7_witness :
    handleManualSubmit (fun _ => "gen") 0 [cardA] ("123") ("11") 5 = [cardA] :=
  claim_C7_theorem.1 (fun _ => "gen") 0 [cardA] ("123") ("11") 5 (by decide)

-- ### Claim C8 (corrected): import payload validation

/-- Amended claim C8: before reaching `handleImport`, the payload is only
checked for being an array: a non-array (or unparseable) payload is
rejected with no mutation, while any array is accepted wholesale, with no
per-element validation of id, cardNumber or pin. -/
theorem claim_C8_theorem :
    (∀ (genId : Nat → String) (existing : List GiftCard),
       handleFileChange genId existing ImportPayload.notArray = existing)
    ∧ (∀ (genId : Nat → String) (existing js : List GiftCard),
       handleFileChange genId existing (ImportPayload.arr js)
         = handleImport genId existing js) :=
  ⟨fun _ _ => rfl, fun _ _ _ => rfl⟩

def emptyFieldsCard : GiftCard := ⟨"", "", "", 0, none, 0⟩

/-- Counterexample to C8 as stated: an array whose single element has empty
id, cardNumber and pin is accepted and mutates the collection. -/
theorem claim_C8_counterexample :
    handleFileChange (fun _ => "gen") []
      (ImportPayload.arr [emptyFieldsCard]) ≠ [] := by
  decide

-- ### Claim C2 (corrected): import merge

theorem findIdx_eq_of_first_match (newCards : List GiftCard) (imp : GiftCard)
    (i : Nat) (h : i < newCards.length)
    (hbefore : ∀ j (hj : j < i),
      (newCards.get ⟨j, Nat.lt_trans hj h⟩).cardNumber ≠ imp.cardNumber)
    (hmatch : (newCards.get ⟨i, h⟩).cardNumber = imp.cardNumber) :
    (newCards.findIdx fun c => c.cardNumber == imp.cardNumber) = i := by
  rw [List.findIdx_eq h]
  constructor
  · rw [List.get_eq_getElem] at hmatch
    simp [hmatch]
  · intro j hj
    have hne := hbefore j hj
    rw [List.get_eq_getElem] at hne
    simp [hne]

/-- Amended claim C2: (a) an imported record whose cardNumber first matches
position i overwrites that record's fields from the import while keeping the
existing id, except that `expiryDate` survives when the import carries none;
(b) an unmatched import is appended with a regenerated id; (c) no record is
ever removed — every existing cardNumber survives the merge. -/
theorem claim_C2_theorem :
    (∀ (genId : Nat → String) (existing : List GiftCard) (imp : GiftCard)
       (i : Nat) (h : i < existing.length),
       (∀ j (hj : j < i),
         (existing.get ⟨j, Nat.lt_trans hj h⟩).cardNumber ≠ imp.cardNumber) →
       (existing.get ⟨i, h⟩).cardNumber = imp.cardNumber →
       handleImport genId existing [imp]
         = existing.set i (overwriteFrom (existing.get ⟨i, h⟩) imp))
    ∧ (∀ old imp : GiftCard,
        (overwriteFrom old imp).id = old.id
        ∧ (overwriteFrom old imp).cardNumber = imp.cardNumber
        ∧ (overwriteFrom old imp).pin = imp.pin
        ∧ (overwriteFrom old imp).balance = imp.balance
        ∧ (overwriteFrom old imp).lastUpdated = imp.lastUpdated
        ∧ (overwriteFrom old imp).expiryDate
            = (match imp.expiryDate with
               | some e => some e
               | none => old.expiryDate))
    ∧ (∀ (genId : Nat → String) (existing : List GiftCard) (imp : GiftCard),
       (∀ g ∈ existing, g.cardNumber ≠ imp.cardNumber) →
       handleImport genId existing [imp]
         = existing ++ [{ imp with id := genId 0 }])
    ∧ (∀ (genId : Nat → String) (existing importedCards : List GiftCard)
       (g : GiftCard), g ∈ existing →
       ∃ g2 ∈ handleImport genId existing importedCards,
         g2.cardNumber = g.cardNumber) := by
  refine ⟨?_, ?_, ?_, ?_⟩
  · intro genId existing imp i h hbefore hmatch
    have hidx := findIdx_eq_of_first_match existing imp i h hbefore hmatch
    subst hidx
    rw [handleImport, handleImportGo_cons_found genId existing imp [] 0 h]
    rfl
  · intro old imp
    exact ⟨rfl, rfl, rfl, rfl, rfl, rfl⟩
  · intro genId existing imp hno
    have hnotlt : ¬ (existing.findIdx fun c => c.cardNumber == imp.cardNumber)
        < existing.length := by
      rw [List.findIdx_lt_length]
      rintro ⟨g, hg, hp⟩
      rw [beq_iff_eq] at hp
      exact hno g hg hp
    rw [handleImport, handleImportGo_cons_not_found genId existing imp [] 0 hnotlt]
    rfl
  · intro genId existing importedCards g hg
    have hmem : g.cardNumber ∈ cardNums (handleImportGo genId existing importedCards 0) := by
      apply handleImportGo_nums_mem
      rw [cardNums]
      exact List.mem_map_of_mem GiftCard.cardNumber hg
    rw [cardNums] at hmem
    obtain ⟨g2, hg2, hnum⟩ := List.mem_map.1 hmem
    exact ⟨g2, hg2, hnum⟩

def cardWithExpiry : GiftCard := ⟨"idA", "1111", "11", 5, some ("01/Jan/2030"), 0⟩

def importedNoExpiry : GiftCard := ⟨"idNew", "1111", "99", 7, none, 42⟩

/-- Counterexample to C2 as stated: a matching import that carries no
`expiryDate` leaves the existing expiry in place, so not every field except
id is overwritten from the imported record. -/
theorem claim_C2_counterexample :
    handleImport genIdDemo [cardWithExpiry] [importedNoExpiry]
      ≠ [{ importedNoExpiry with id := cardWithExpiry.id }] := by
  decide

/-- Witness for C2: an unmatched import is appended with a regenerated id. -/
theorem claim_C2_witness :
    handleImport genIdDemo [cardA] [⟨"idNew", "7777", "99", 7, none, 42⟩]
      = [cardA] ++ [{ (⟨"idNew", "7777", "99", 7, none, 42⟩ : GiftCard) with
          id := genIdDemo 0 }] :=
  claim_C2_theorem.2.2.1 genIdDemo [cardA] ⟨"idNew", "7777", "99", 7, none, 42⟩
    (by decide)

-- ### Claim C3 (corrected): uniqueness of normalized card numbers

theorem normNums_eq_cardNums {l : List GiftCard}
    (h : ∀ g ∈ l, jsTrim g.cardNumber = g.cardNumber) :
    normNums l = cardNums l := by
  rw [normNums, cardNums]
  exact List.map_congr_left h

/-- Amended claim C3: both reconciliation operations preserve pairwise
distinctness of the stored (raw) card numbers; distinctness of the
normalized numbers is preserved by mergeNew when every stored number is
already trimmed, and by importMerge when the imported numbers are trimmed
too — but not in general. -/
theorem claim_C3_theorem :
    (∀ (genId : Nat → String) (now : Int) (existing : List GiftCard)
       (incoming : List NewCardData),
       (cardNums existing).Nodup →
       (cardNums (handleAddCards genId now existing incoming).1).Nodup)
    ∧ (∀ (genId : Nat → String) (existing imported : List GiftCard),
       (cardNums existing).Nodup →
       (cardNums (handleImport genId existing imported)).Nodup)
    ∧ (∀ (genId : Nat → String) (now : Int) (existing : List GiftCard)
       (incoming : List NewCardData),
       (∀ g ∈ existing, jsTrim g.cardNumber = g.cardNumber) →
       (normNums existing).Nodup →
       (normNums (handleAddCards genId now existing incoming).1).Nodup)
    ∧ (∀ (genId : Nat → String) (existing imported : List GiftCard),
       (∀ g ∈ existing, jsTrim g.cardNumber = g.cardNumber) →
       (∀ g ∈ imported, jsTrim g.cardNumber = g.cardNumber) →
       (normNums existing).Nodup →
       (normNums (handleImport genId existing imported)).Nodup) := by
  refine ⟨?_, ?_, ?_, ?_⟩
  · intro genId now existing incoming h
    rw [handleAddCards]
    exact handleAddCardsGo_nodup genId now incoming existing [] 0 h
  · intro genId existing imported h
    rw [handleImport]
    exact handleImportGo_nodup genId imported existing 0 h
  · intro genId now existing incoming ht h
    have htr : ∀ g ∈ (handleAddCards genId now existing incoming).1,
        jsTrim g.cardNumber = g.cardNumber := by
      rw [handleAddCards]
      exact handleAddCardsGo_trimmed genId now incoming existing [] 0 ht
    rw [normNums_eq_cardNums htr, handleAddCards]
    apply handleAddCardsGo_nodup
    rw [← normNums_eq_cardNums ht]
    exact h
  · intro genId existing imported ht hti h
    have htr : ∀ g ∈ handleImport genId existing imported,
        jsTrim g.cardNumber = g.cardNumber := by
      rw [handleImport]
      exact handleImportGo_trimmed genId imported existing 0 ht hti
    rw [normNums_eq_cardNums htr, handleImport]
    apply handleImportGo_nodup
    rw [← normNums_eq_cardNums ht]
    exact h

def cardPlain : GiftCard := ⟨"idP", "7777", "11", 5, none, 0⟩

def cardPadded : GiftCard := ⟨"idQ", " 7777", "22", 5, none, 0⟩

/-- Counterexample to C3 as stated: importing a number that differs from a
stored one only by surrounding whitespace yields two records with the same
normalized card number, although the starting collection satisfied the
claim's hypothesis. -/
theorem claim_C3_counterexample :
    (normNums [cardPlain]).Nodup
    ∧ ¬ (normNums (handleImport genIdDemo [cardPlain] [cardPadded])).Nodup := by
  exact ⟨by decide, by decide⟩

/-- Witness for C3 on trimmed data: the merged collection keeps distinct
normalized numbers. -/
theorem claim_C3_witness :
    (normNums (handleImport genIdDemo [cardA] [cardB])).Nodup :=
  claim_C3_theorem.2.2.2 genIdDemo [cardA] [cardB]
    (by decide) (by decide) (by decide)

-- ### Lemmas about the classifier

/-- The classifier on a card with a nonzero balance and an expiry string is
exactly the comparison against the end of the parsed day, and `false` on
parse failure. -/
theorem isCardArchived_eq_parseExpiry (now : Int) (card : GiftCard)
    (e : String) (hb : ¬ card.balance = 0) (he : card.expiryDate = some e) :
    isCardArchived now card
      = match parseExpiry e with
        | some (d, m, y) => decide (jsEndOfDayMs y m d < now)
        | none => false := by
  unfold isCardArchived parseExpiry
  rw [he, if_neg hb]
  dsimp only
  cases hs : splitDate e with
  | nil => rfl
  | cons p0 t0 =>
    cases t0 with
    | nil => rfl
    | cons p1 t1 =>
      cases t1 with
      | nil => rfl
      | cons p2 t2 =>
        cases t2 with
        | cons q qs => rfl
        | nil =>
          dsimp only
          cases monthAbbrevIndex ((toLowerChars p1).take 3) with
          | some m =>
            cases jsParseInt10 p0 <;> cases jsParseInt10 p2 <;> rfl
          | none =>
            cases jsParseIntAuto (toLowerChars p1) with
            | some n =>
              cases jsParseInt10 p0 <;> cases jsParseInt10 p2 <;> rfl
            | none => rfl

-- ### Claim C5 (corrected): expiry comparison

/-- Amended claim C5: for a positive-balance card whose expiry string
parses, the classifier archives exactly when the end (23:59:59.999, local
modelled as UTC) of the JS-normalized calendar day — years 0..99 read as
1900+year, out-of-range month or day values carried over arithmetically —
lies strictly before `now`. -/
theorem claim_C5_theorem (now : Int) (card : GiftCard) (e : String)
    (d m y : Int) (hb : 0 < card.balance) (he : card.expiryDate = some e)
    (hp : parseExpiry e = some (d, m, y)) :
    isCardArchived now card = true ↔ jsEndOfDayMs y m d < now := by
  rw [isCardArchived_eq_parseExpiry now card e (ne_of_gt hb) he, hp]
  simp

def twoDigitYearCard : GiftCard := ⟨"idY", "8888", "88", 10, some ("31/12/30"), 0⟩

/-- Counterexample to C5 as stated: the expiry 31/12/30 parses as the
calendar day 31 Dec of year 30, whose end lies strictly before the chosen
`now`, yet the classifier reports the card active, because the source reads
the two-digit year as 1930. -/
theorem claim_C5_counterexample :
    parseExpiry ("31/12/30") = some (31, 11, 30)
    ∧ civilEndOfDayMs 30 11 31 < -10000000000000
    ∧ isCardArchived (-10000000000000) twoDigitYearCard = false := by
  exact ⟨by decide, by decide, by decide⟩

def expiredCard : GiftCard := ⟨"idE", "6666", "66", 10, some ("31/Dec/2020"), 0⟩

/-- Witness for C5: a card expired on 31/Dec/2020 is archived on
2024-01-01. -/
theorem claim_C5_witness : isCardArchived 1704067200000 expiredCard = true :=
  (claim_C5_theorem 1704067200000 expiredCard ("31/Dec/2020") 31 11 2020
    (by decide) rfl (by decide)).mpr (by decide)

-- ### Claim C6 (corrected): malformed expiry tolerance

/-- Amended claim C6: a positive-balance card whose expiry fails to parse —
wrong component count, a month that is neither a known three-letter
abbreviation prefix nor numeric for `parseInt`, or a non-numeric day or
year — is never archived by expiry; numeric months are accepted without any
1..12 range check, rolling over into adjacent years. -/
theorem claim_C6_theorem :
    (∀ (now : Int) (card : GiftCard) (e : String),
       0 < card.balance → card.expiryDate = some e → parseExpiry e = none →
       isCardArchived now card = false)
    ∧ (∀ e : String, (splitDate e).length ≠ 3 → parseExpiry e = none)
    ∧ (∀ (e : String) (p0 p1 p2 : List Char), splitDate e = [p0, p1, p2] →
       monthAbbrevIndex ((toLowerChars p1).take 3) = none →
       jsParseIntAuto (toLowerChars p1) = none →
       parseExpiry e = none)
    ∧ (∀ (e : String) (p0 p1 p2 : List Char), splitDate e = [p0, p1, p2] →
       jsParseInt10 p0 = none ∨ jsParseInt10 p2 = none →
       parseExpiry e = none) := by
  refine ⟨?_, ?_, ?_, ?_⟩
  · intro now card e hb he hp
    rw [isCardArchived_eq_parseExpiry now card e (ne_of_gt hb) he, hp]
  · intro e h
    unfold parseExpiry
    cases hs : splitDate e with
    | nil => rfl
    | cons p0 t0 =>
      cases t0 with
      | nil => rfl
      | cons p1 t1 =>
        cases t1 with
        | nil => rfl
        | cons p2 t2 =>
          cases t2 with
          | cons q qs => rfl
          | nil =>
            rw [hs] at h
            exact absurd rfl h
  · intro e p0 p1 p2 hs hm hauto
    unfold parseExpiry
    rw [hs]
    dsimp only
    rw [hm, hauto]
  · intro e p0 p1 p2 hs hd
    unfold parseExpiry
    rw [hs]
    dsimp only
    rcases hd with hd | hd
    · rw [hd]
      cases monthAbbrevIndex ((toLowerChars p1).take 3) with
      | some m => cases jsParseInt10 p2 <;> rfl
      | none =>
        cases jsParseIntAuto (toLowerChars p1) with
        | some n => cases jsParseInt10 p2 <;> rfl
        | none => rfl
    · rw [hd]
      cases monthAbbrevIndex ((toLowerChars p1).take 3) with
      | some m => cases jsParseInt10 p0 <;> rfl
      | none =>
        cases jsParseIntAuto (toLowerChars p1) with
        | some n => cases jsParseInt10 p0 <;> rfl
        | none => rfl

def month13Card : GiftCard := ⟨"idM", "9990", "99", 10, some ("31/13/2020"), 0⟩

/-- Counterexample to C6 as stated: the numeric month 13 is outside 1..12,
so by the claim the parse should fail and the card stay active; the source
accepts it, rolls it over to January 2021 and archives the card. -/
theorem claim_C6_counterexample :
    parseExpiry ("31/13/2020") = some (31, 12, 2020)
    ∧ isCardArchived 1704067200000 month13Card = true := by
  exact ⟨by decide, by decide⟩

def notADateCard : GiftCard := ⟨"idN", "7777", "77", 10, some ("not-a-date"), 0⟩

/-- Witness for C6: an unparseable expiry leaves the card active. -/
theorem claim_C6_witness : isCardArchived 1704067200000 notADateCard = false :=
  claim_C6_theorem.1 1704067200000 notADateCard ("not-a-date")
    (by decide) rfl (by decide)
